import Mathlib

/-! Image-hosting data migration script: embedding of `src/main.go`.

The program walks the legacy image table with `FindInBatches` of gorm, and for
every row derives an identifier from the stored file name, downloads the
image over HTTP and inserts a row into the new table.

Go strings are modelled as lists of characters.  The only characters the
program ever inspects are `.` and `/`, both ASCII, so scanning characters
and scanning UTF-8 bytes agree.
-/

set_option autoImplicit false

namespace Migration

/-! ## Go standard library routines used by `main` -/

/-- A Go `string`. -/
abbrev GoString := List Char

/-- Go `os.IsPathSeparator` on a Unix target: `PathSeparator == c`. -/
def IsPathSeparator (c : Char) : Bool := c == '/'

/-- The loop of Go `filepath.Ext`:
`for i := len(path) - 1; i >= 0 && !os.IsPathSeparator(path[i]); i--`
with body `if path[i] == '.' { return path[i:] }`, falling through to
`return ""`.  The numeric argument is `i + 1`. -/
def ExtLoop (path : GoString) : Nat → GoString
  | 0 => []
  | i + 1 =>
    match path.get? i with
    | none => []
    | some c =>
      if IsPathSeparator c then []
      else if c = '.' then path.drop i
      else ExtLoop path i

/-- Go `filepath.Ext(path)`. -/
def Ext (path : GoString) : GoString := ExtLoop path path.length

/-- Go `strings.HasSuffix`:
`len(s) >= len(suffix) && s[len(s)-len(suffix):] == suffix`. -/
def HasSuffix (s suffix : GoString) : Bool :=
  decide (suffix.length ≤ s.length) && (s.drop (s.length - suffix.length) == suffix)

/-- Go `strings.HasPrefix`:
`len(s) >= len(prefix) && s[:len(prefix)] == prefix`. -/
def HasPrefix (s pre : GoString) : Bool :=
  decide (pre.length ≤ s.length) && (s.take pre.length == pre)

/-- Go `strings.TrimSuffix`. -/
def TrimSuffix (s suffix : GoString) : GoString :=
  if HasSuffix s suffix then s.take (s.length - suffix.length) else s

/-- Go `strings.TrimPrefix`. -/
def TrimPrefix (s pre : GoString) : GoString :=
  if HasPrefix s pre then s.drop pre.length else s

/-! ## Identifier derivation (`main`, lines 39 and 52) -/

/-- Line 39: `strings.TrimSuffix(image.Name, filepath.Ext(image.Name))`. -/
def imageIdentifier (name : GoString) : GoString := TrimSuffix name (Ext name)

/-- Line 52: `strings.TrimPrefix(filepath.Ext(image.Name), ".")`. -/
def fileExtension (name : GoString) : GoString := TrimPrefix (Ext name) ['.']

/-! ## Data model -/

/-- A Go `error`, represented by its message. -/
abbrev Err := GoString

/-- A Go `time.Time`, as an instant in Unix seconds. -/
abbrev Time := Int

/-- The zero value of `time.Time`: January 1 of year 1, 00:00 UTC. -/
def zeroTime : Time := -62135596800

/-- Modelled from the spec: the declaration of `model.OriginalImageTable`
(package `model`) is not part of the source tree; the fields are the ones
`main` reads on lines 39 to 54, the LegacyImageRecord of the data model. -/
structure OriginalImageTable where
  Path : GoString
  Name : GoString
  OriginName : GoString
  CreatedAt : Time
  UpdatedAt : Time
deriving DecidableEq, Repr

/-- Modelled from the spec: the declaration of `model.NewImageTable` is not
part of the source tree; the fields are the ones `storeImageInDatabase`
fills on lines 103 to 110, the DestinationImageRecord of the data model. -/
structure NewImageTable where
  CreatedAt : Time
  UpdatedAt : Time
  ImageIdentifier : GoString
  OriginalFileName : GoString
  ImageType : GoString
  ImageFileData : List Nat
deriving DecidableEq, Repr

/-- Severity of a `slog` record. -/
inductive Level where
  | Info
  | Error
deriving DecidableEq, Repr

/-- Value of a `slog` attribute. -/
inductive AttrValue where
  | str (s : GoString)
  | int (n : Nat)
  | err (e : Err)
deriving DecidableEq, Repr

/-- One record written by `slog.Info` or `slog.Error`: level, message and
the key/value attributes. -/
structure LogEntry where
  level : Level
  msg : String
  attrs : List (String × AttrValue)
deriving DecidableEq, Repr

/-- What `http.Get` followed by reading and closing the body can do:
either the transport fails, or a response arrives with a status code, a
status line, the bytes `io.ReadAll` returns together with its error, and
the error of `resp.Body.Close()`. -/
inductive GetResult where
  | transportError (e : Err)
  | response (StatusCode : Nat) (Status : GoString) (body : List Nat)
      (readErr : Option Err) (closeErr : Option Err)
deriving DecidableEq, Repr

/-- The outside world as a family of oracles: the error of the n-th
paginated `Find` (n = 1, 2, ...), the outcome of the n-th `http.Get`
(n = 0, 1, ...) on a URL, the error of the n-th `NewDB.Create`
(n = 0, 1, ...) on a row, and the clock reading during the n-th
`NewDB.Create`. -/
structure Env where
  findErr : Nat → Option Err
  httpGet : Nat → GoString → GetResult
  createErr : Nat → NewImageTable → Option Err
  now : Nat → Time

/-- Observable effects of the run so far, oldest first: URLs passed to
`http.Get`, rows handed to `NewDB.Create`, rows the destination accepted
(as gorm submitted them, see `autoTime`), and the log. -/
structure World where
  gets : List GoString
  created : List NewImageTable
  stored : List NewImageTable
  log : List LogEntry
deriving DecidableEq, Repr

/-- The world before the run. -/
def World.init : World := ⟨[], [], [], []⟩

/-- Append a `slog.Info` record. -/
def World.info (w : World) (msg : String) (attrs : List (String × AttrValue)) : World :=
  { w with log := w.log ++ [⟨Level.Info, msg, attrs⟩] }

/-- Append a `slog.Error` record. -/
def World.error (w : World) (msg : String) (attrs : List (String × AttrValue)) : World :=
  { w with log := w.log ++ [⟨Level.Error, msg, attrs⟩] }

/-- Number of error-level records in a log. -/
def errorCount (log : List LogEntry) : Nat :=
  (log.filter (fun e => e.level = Level.Error)).length

/-- Number of error-level records in a log that carry the attribute
`"identifier"` with the given value. -/
def errorCountFor (identifier : GoString) (log : List LogEntry) : Nat :=
  (log.filter (fun e => e.level = Level.Error ∧
    ("identifier", AttrValue.str identifier) ∈ e.attrs)).length

/-- Number of `Processing batch` records in a log: the number of times the
callback of `main` was entered (line 36). -/
def batchesProcessed (log : List LogEntry) : Nat :=
  (log.filter (fun e => e.msg = "Processing batch")).length

/-! ## `downloadImage` (lines 76 to 100) -/

/-- The pair `([]byte, error)` a Go function returns; `none` is `nil`. -/
structure DownloadResult where
  data : Option (List Nat)
  err : Option Err
deriving DecidableEq, Repr

/-- The deferred closure of lines 82 to 86: close the body, log a failure. -/
def closeBody (w : World) (closeErr : Option Err) : World :=
  match closeErr with
  | some e => w.error "Error closing response body" [("err", AttrValue.err e)]
  | none => w

/-- Go `http.StatusOK`. -/
def StatusOK : Nat := 200

/-- Lines 76 to 100. -/
def downloadImage (env : Env) (w : World) (imageURL : GoString) : DownloadResult × World :=
  let w1 : World := { w with gets := w.gets ++ [imageURL] }
  match env.httpGet w.gets.length imageURL with
  | GetResult.transportError e =>
    (⟨none, some ("failed to fetch image: ".toList ++ e)⟩,
      w1.error "Failed to fetch image" [("err", AttrValue.err e)])
  | GetResult.response StatusCode Status body readErr closeErr =>
    if StatusCode ≠ StatusOK then
      (⟨none, some ("bad status: ".toList ++ Status)⟩,
        closeBody (w1.error "Bad status" [("status", AttrValue.str Status)]) closeErr)
    else
      match readErr with
      | some e =>
        (⟨none, some ("failed to read image data: ".toList ++ e)⟩,
          closeBody (w1.error "Failed to read image data" [("err", AttrValue.err e)]) closeErr)
      | none => (⟨some body, none⟩, closeBody w1 closeErr)

/-! ## `storeImageInDatabase` (lines 102 to 119) -/

/-- What gorm `Create` submits for a row handed to it: the fields
`CreatedAt` and `UpdatedAt` are time-tracked by the naming convention of
gorm, so a zero value in either is replaced by the current time; a
non-zero value and every other field go through unchanged. -/
def autoTime (now : Time) (row : NewImageTable) : NewImageTable :=
  { row with
    CreatedAt := if row.CreatedAt = zeroTime then now else row.CreatedAt
    UpdatedAt := if row.UpdatedAt = zeroTime then now else row.UpdatedAt }

/-- Lines 102 to 119: build the row, hand it to `NewDB.Create`, log and
return its error.  When `Create` succeeds the destination holds the row as
gorm submitted it. -/
def storeImageInDatabase (env : Env) (w : World) (originalFileName fileExtension : GoString)
    (imageData : List Nat) (imageIdentifier : GoString) (createdAt updatedAt : Time) :
    Option Err × World :=
  let uploadedImage : NewImageTable :=
    { CreatedAt := createdAt
      UpdatedAt := updatedAt
      ImageIdentifier := imageIdentifier
      OriginalFileName := originalFileName
      ImageType := fileExtension
      ImageFileData := imageData }
  let w1 : World := { w with created := w.created ++ [uploadedImage] }
  match env.createErr w.created.length uploadedImage with
  | some e =>
    (some e, w1.error "Database cannot store the image"
      [("identifier", AttrValue.str imageIdentifier), ("err", AttrValue.err e)])
  | none =>
    (none, { w1 with stored := w1.stored ++ [autoTime (env.now w.created.length) uploadedImage] })

/-! ## The batch callback (lines 35 to 67) -/

/-- The base URL of line 41. -/
def baseURL : GoString := "https://pic.jingyijun.xyz:8443/i/".toList

/-- Line 41. -/
def imageURL (image : OriginalImageTable) : GoString :=
  baseURL ++ image.Path ++ "/".toList ++ image.Name

/-- The body of the `for _, image := range images` loop, lines 39 to 61. -/
def processRow (env : Env) (w : World) (image : OriginalImageTable) : World :=
  let identifier := imageIdentifier image.Name
  let url := imageURL image
  let w1 := w.info "Downloading image"
    [("identifier", AttrValue.str identifier), ("url", AttrValue.str url)]
  match downloadImage env w1 url with
  | (⟨_, some e⟩, w2) =>
    w2.error "Error downloading image"
      [("identifier", AttrValue.str identifier), ("err", AttrValue.err e)]
  | (⟨imageData, none⟩, w2) =>
    let w3 := w2.info "Image downloaded successfully" [("identifier", AttrValue.str identifier)]
    match storeImageInDatabase env w3 image.OriginName (fileExtension image.Name)
        (imageData.getD []) identifier image.CreatedAt image.UpdatedAt with
    | (some e, w4) =>
      w4.error "Error storing image in database"
        [("identifier", AttrValue.str identifier), ("err", AttrValue.err e)]
    | (none, w4) =>
      w4.info "Image stored in database successfully" [("identifier", AttrValue.str identifier)]

/-- The callback passed to `FindInBatches`, lines 35 to 67.  It receives the
world, the contents of the shared slice `images` and the batch number, and
returns the new world, the new contents of `images` and its error.  Line 64
sets `images = nil` and line 66 returns `nil`. -/
def callback (env : Env) (w : World) (images : List OriginalImageTable) (batch : Nat) :
    World × List OriginalImageTable × Option Err :=
  let w1 := w.info "Processing batch" [("batch", AttrValue.int batch)]
  let w2 := images.foldl (processRow env) w1
  (w2, [], none)

/-! ## `FindInBatches` of gorm and `main` (lines 18 to 74)

`FindInBatches` is the routine of the gorm library (`gorm.io/gorm`,
`finisher_api.go`) that `main` calls on line 35.  Its loop is

```go
for {
    result := queryDB.Limit(batchSize).Find(dest)
    rowsAffected += result.RowsAffected
    batch++
    if result.Error == nil && result.RowsAffected != 0 {
        tx.AddError(fc(fcTx, batch))
    } else if result.Error != nil {
        tx.AddError(result.Error)
    }
    if tx.Error != nil || int(result.RowsAffected) < batchSize {
        break
    }
    // totalSize > 0 only under a user LIMIT clause; none here
    resultsValue := reflect.Indirect(reflect.ValueOf(dest))
    if result.Statement.Schema.PrioritizedPrimaryField == nil {
        tx.AddError(ErrPrimaryKeyRequired)
        break
    }
    primaryValue, zero := result.Statement.Schema.PrioritizedPrimaryField.ValueOf(
        tx.Statement.Context, resultsValue.Index(resultsValue.Len()-1))
    if zero {
        tx.AddError(ErrPrimaryKeyRequired)
        break
    }
    queryDB = tx.Clauses(clause.Gt{Column: primaryKey, Value: primaryValue})
}
```

The cursor of the next page is read from the last element of `dest` after
the callback has run; `dest` is `&images`, the variable the callback of
`main` assigns on line 64.
-/

/-- The part of the gorm schema of `model.OriginalImageTable` that
`FindInBatches` consults: the accessor of the primary-key column, absent
when the model declares no primary key.  The model package is not part of
the source tree, so the schema is a parameter. -/
structure Schema where
  PrioritizedPrimaryField : Option (OriginalImageTable → Nat)

/-- gorm `ErrPrimaryKeyRequired`. -/
def ErrPrimaryKeyRequired : Err := "primary key required".toList

/-- The rows one paginated read returns: the table, listed in primary-key
order, restricted to keys above the cursor, cut to `limit` rows. -/
def Find (schema : Schema) (table : List OriginalImageTable) (cursor : Option Nat)
    (limit : Nat) : List OriginalImageTable :=
  match cursor, schema.PrioritizedPrimaryField with
  | some v, some pk => (table.filter (fun r => decide (v < pk r))).take limit
  | _, _ => table.take limit

/-- How a call of `FindInBatches` ends: it returns a handle whose `Error`
field is given, or a run-time panic unwinds it. -/
inductive Exit where
  | returned (Error : Option Err)
  | panicked (msg : String)
deriving DecidableEq, Repr

/-- State at the end of `FindInBatches`: how it ended, the world, the
contents of `*dest`, the number of reads issued and the rows read. -/
structure BatchesResult where
  exit : Exit
  world : World
  dest : List OriginalImageTable
  batch : Nat
  rowsAffected : Nat
deriving DecidableEq, Repr

/-- The loop of `FindInBatches` with an arbitrary callback `fc`.  The
arguments after the fuel are the cursor of `queryDB`, `batch`,
`rowsAffected`, the contents of `*dest` and the world.  A callback may
rewrite `*dest` at will, so the loop is bounded by fuel; `none` means the
fuel ran out. -/
def FindInBatchesLoop (schema : Schema) (table : List OriginalImageTable) (env : Env)
    (batchSize : Nat)
    (fc : World → List OriginalImageTable → Nat → World × List OriginalImageTable × Option Err) :
    Nat → Option Nat → Nat → Nat → List OriginalImageTable → World → Option BatchesResult
  | 0, _, _, _, _, _ => none
  | fuel + 1, cursor, batch, rowsAffected, dest, w =>
    match env.findErr (batch + 1) with
    | some e => some ⟨Exit.returned (some e), w, dest, batch + 1, rowsAffected⟩
    | none =>
      let rows := Find schema table cursor batchSize
      let after : World × List OriginalImageTable × Option Err :=
        if rows.length ≠ 0 then fc w rows (batch + 1) else (w, rows, none)
      if after.2.2.isSome ∨ rows.length < batchSize then
        some ⟨Exit.returned after.2.2, after.1, after.2.1, batch + 1, rowsAffected + rows.length⟩
      else
        match schema.PrioritizedPrimaryField with
        | none =>
          some ⟨Exit.returned (some ErrPrimaryKeyRequired), after.1, after.2.1, batch + 1,
            rowsAffected + rows.length⟩
        | some pk =>
          match after.2.1.getLast? with
          | none =>
            some ⟨Exit.panicked "reflect: slice index out of range", after.1, after.2.1,
              batch + 1, rowsAffected + rows.length⟩
          | some last =>
            if pk last = 0 then
              some ⟨Exit.returned (some ErrPrimaryKeyRequired), after.1, after.2.1, batch + 1,
                rowsAffected + rows.length⟩
            else
              FindInBatchesLoop schema table env batchSize fc fuel (some (pk last)) (batch + 1)
                (rowsAffected + rows.length) after.2.1 after.1

/-- The call `FindInBatches(dest, batchSize, fc)`: the loop started with no
cursor, `batch = 0`, `rowsAffected = 0`. -/
def FindInBatches (schema : Schema) (table : List OriginalImageTable) (env : Env)
    (dest : List OriginalImageTable) (batchSize : Nat)
    (fc : World → List OriginalImageTable → Nat → World × List OriginalImageTable × Option Err)
    (fuel : Nat) (w : World) : Option BatchesResult :=
  FindInBatchesLoop schema table env batchSize fc fuel none 0 0 dest w

/-- Line 21. -/
def batchSize : Nat := 10000

/-- How the run ends: `Done` is the branch of line 72, `FatalAborted` the
branch of line 70, `Panicked` a run-time panic that kills the process
before either is reached. -/
inductive Outcome where
  | Done
  | FatalAborted (e : Err)
  | Panicked (msg : String)
deriving DecidableEq, Repr

/-- What a run leaves behind: its outcome, the world, and the number of
paginated reads issued. -/
structure Run where
  outcome : Outcome
  world : World
  reads : Nat
deriving DecidableEq, Repr

/-- Lines 69 to 73, applied to what `FindInBatches` left. -/
def report (r : BatchesResult) : Run :=
  match r.exit with
  | Exit.panicked m => ⟨Outcome.Panicked m, r.world, r.batch⟩
  | Exit.returned (some e) =>
    ⟨Outcome.FatalAborted e, r.world.error "Error processing batches" [("err", AttrValue.err e)],
      r.batch⟩
  | Exit.returned none =>
    ⟨Outcome.Done, r.world.info "All batches processed successfully" [], r.batch⟩

/-- Lines 34 to 73 with the page size as a parameter: `images` starts as
`nil`, `FindInBatches` runs with the callback, the result is reported.  The
fuel is one more than the number of rows of the table. -/
def mainWith (schema : Schema) (table : List OriginalImageTable) (env : Env) (size : Nat) :
    Option Run :=
  (FindInBatches schema table env [] size (callback env) (table.length + 1) World.init).map report

/-- The function `main` from line 34 on, with the page size of line 21. -/
def main (schema : Schema) (table : List OriginalImageTable) (env : Env) : Option Run :=
  mainWith schema table env batchSize

/-! ## Row isolation, stated independently of the loop -/

/-- A world in which every read, every download and every insert succeeds;
each download yields the bytes 1, 2, 3. -/
def envAllOk : Env :=
  { findErr := fun _ => none
    httpGet := fun _ _ => GetResult.response 200 "200 OK".toList [1, 2, 3] none none
    createErr := fun _ _ => none
    now := fun n => 1700000000 + n }

/-- As `envAllOk`, but the second download (call number 1) is answered
with status 404. -/
def envSecondFetchFails : Env :=
  { envAllOk with
    httpGet := fun n _ =>
      if n = 1 then GetResult.response 404 "404 Not Found".toList [] none none
      else GetResult.response 200 "200 OK".toList [1, 2, 3] none none }

/-- As `envAllOk`, but every download is answered with status 404. -/
def envNotFound : Env :=
  { envAllOk with
    httpGet := fun _ _ => GetResult.response 404 "404 Not Found".toList [] none none }

/-- As `envAllOk`, but every download is answered with status 201 and a
body that reads without error. -/
def envCreated : Env :=
  { envAllOk with
    httpGet := fun _ _ => GetResult.response 201 "201 Created".toList [1, 2, 3] none none }

/-- A schema whose primary key is stored in the creation instant. -/
def sampleSchema : Schema := ⟨some (fun r => r.CreatedAt.toNat)⟩

/-- A schema without primary key. -/
def keylessSchema : Schema := ⟨none⟩

/-- A legacy row with primary key `i` and the given stored file name. -/
def sampleRow (i : Nat) (name : String) : OriginalImageTable :=
  { Path := "2024".toList
    Name := name.toList
    OriginName := "photo.png".toList
    CreatedAt := i
    UpdatedAt := i + 100 }

/-- A legacy row whose two timestamps are the zero `time.Time`. -/
def zeroRow : OriginalImageTable :=
  { Path := "2024".toList
    Name := "z0.png".toList
    OriginName := "photo.png".toList
    CreatedAt := zeroTime
    UpdatedAt := zeroTime }

/-- A legacy table of three rows. -/
def sampleTable : List OriginalImageTable :=
  [sampleRow 1 "a1.png", sampleRow 2 "b2.png", sampleRow 3 "c3.png"]

/-- A legacy table of 10001 rows, one more than the page size of line 21. -/
def bigTable : List OriginalImageTable :=
  (List.range 10001).map (fun i => sampleRow (i + 1) "x.png")

/-- The destination row derived from `sampleRow i name` when the download
yields the bytes 1, 2, 3. -/
def migrated (i : Nat) (identifier : String) : NewImageTable :=
  { CreatedAt := i
    UpdatedAt := i + 100
    ImageIdentifier := identifier.toList
    OriginalFileName := "photo.png".toList
    ImageType := "png".toList
    ImageFileData := [1, 2, 3] }

/-! ## Lemmas on the string routines -/

theorem ExtLoop_snoc (l r : GoString) (c : Char) :
    ExtLoop ((l ++ [c]) ++ r) (l.length + 1) =
      if IsPathSeparator c then [] else if c = '.' then '.' :: r
      else ExtLoop (l ++ (c :: r)) l.length := by
  have hget : ((l ++ [c]) ++ r).get? l.length = some c := by
    rw [List.append_assoc, List.get?_eq_getElem?, List.getElem?_append_right (Nat.le_refl _)]
    simp
  have hdrop : ((l ++ [c]) ++ r).drop l.length = c :: r := by
    simp [List.drop_append_of_le_length]
  rw [ExtLoop, hget]
  simp only [hdrop]
  by_cases hs : IsPathSeparator c = true
  · simp [hs]
  · by_cases hd : c = '.'
    · simp [hd, IsPathSeparator]
    · simp [hs, hd]

theorem ExtLoop_no_dot (l : GoString) : ∀ r : GoString, '.' ∉ l →
    ExtLoop (l ++ r) l.length = [] := by
  induction l using List.reverseRecOn with
  | nil => intro r _; simp [ExtLoop]
  | append_singleton l c ih =>
    intro r h
    have hc : c ≠ '.' := by
      intro hc; apply h; simp [hc]
    have hl : '.' ∉ l := by
      intro hl; apply h; simp [hl]
    have := ExtLoop_snoc l r c
    simp only [List.length_append, List.length_singleton]
    rw [this]
    by_cases hs : IsPathSeparator c = true
    · simp [hs]
    · simp only [hs, hc, if_false]
      exact ih (c :: r) hl

theorem ExtLoop_found (pre suf : GoString) : ∀ r : GoString, '.' ∉ suf → '/' ∉ suf →
    ExtLoop ((pre ++ '.' :: suf) ++ r) (pre ++ '.' :: suf).length = '.' :: (suf ++ r) := by
  induction suf using List.reverseRecOn with
  | nil =>
    intro r _ _
    have := ExtLoop_snoc pre r '.'
    simp only [List.length_append, List.length_singleton] at this ⊢
    simpa [IsPathSeparator] using this
  | append_singleton suf c ih =>
    intro r hd hs
    have hc : c ≠ '.' := by
      intro hc; apply hd; simp [hc]
    have hc2 : IsPathSeparator c ≠ true := by
      intro hc2; apply hs
      have : c = '/' := by simpa [IsPathSeparator] using hc2
      simp [this]
    have hd1 : '.' ∉ suf := by
      intro h; apply hd; simp [h]
    have hs1 : '/' ∉ suf := by
      intro h; apply hs; simp [h]
    have h1 := ExtLoop_snoc (pre ++ '.' :: suf) r c
    have e1 : (pre ++ '.' :: (suf ++ [c])) = (pre ++ '.' :: suf) ++ [c] := by simp
    rw [e1]
    simp only [List.length_append (pre ++ '.' :: suf) [c], List.length_singleton]
    rw [h1]
    simp only [hc2, hc, if_false]
    rw [ih (c :: r) hd1 hs1]
    simp

theorem ExtLoop_shape (l : GoString) : ∀ r : GoString,
    ExtLoop (l ++ r) l.length = [] ∨
      ∃ pre suf, l = pre ++ '.' :: suf ∧ '.' ∉ suf ∧
        ExtLoop (l ++ r) l.length = '.' :: (suf ++ r) := by
  induction l using List.reverseRecOn with
  | nil => intro r; left; simp [ExtLoop]
  | append_singleton l c ih =>
    intro r
    have h1 := ExtLoop_snoc l r c
    simp only [List.length_append, List.length_singleton]
    rw [h1]
    by_cases hs : IsPathSeparator c = true
    · left; simp [hs]
    · by_cases hd : c = '.'
      · right
        refine ⟨l, [], ?_, ?_, ?_⟩
        · simp [hd]
        · simp
        · simp [hd, IsPathSeparator]
      · simp only [hs, hd, if_false]
        rcases ih (c :: r) with h | ⟨pre, suf, hl, hnd, hE⟩
        · left; exact h
        · right
          refine ⟨pre, suf ++ [c], ?_, ?_, ?_⟩
          · simp [hl]
          · simp only [List.mem_append, List.mem_singleton, not_or]
            exact ⟨hnd, fun h => hd h.symm⟩
          · rw [hE]; simp

theorem Ext_no_dot (name : GoString) (h : '.' ∉ name) : Ext name = [] := by
  have := ExtLoop_no_dot name [] h
  simpa [Ext] using this

theorem Ext_found (pre suf : GoString) (hd : '.' ∉ suf) (hs : '/' ∉ suf) :
    Ext (pre ++ '.' :: suf) = '.' :: suf := by
  have := ExtLoop_found pre suf [] hd hs
  simpa [Ext] using this

theorem Ext_shape (name : GoString) :
    Ext name = [] ∨ ∃ pre suf, name = pre ++ '.' :: suf ∧ '.' ∉ suf ∧ Ext name = '.' :: suf := by
  have := ExtLoop_shape name []
  simpa [Ext] using this

theorem TrimSuffix_nil (s : GoString) : TrimSuffix s [] = s := by
  simp [TrimSuffix, HasSuffix]

theorem TrimSuffix_append (pre suf : GoString) : TrimSuffix (pre ++ suf) suf = pre := by
  simp [TrimSuffix, HasSuffix]

theorem TrimPrefix_nil_dot : TrimPrefix [] ['.'] = [] := by
  simp [TrimPrefix, HasPrefix]

theorem TrimPrefix_dot (suf : GoString) : TrimPrefix ('.' :: suf) ['.'] = suf := by
  simp [TrimPrefix, HasPrefix]

/-! ## Identifier derivation: claims C1, C9, C10 -/

/-- C1 (as stated, refuted): the file name `a.b/c` contains a dot, its last
dot is followed by `b/c`, yet the derived identifier is not `a` and the
derived file-type token is not `b/c`: `filepath.Ext` stops at the slash and
finds no extension, so the identifier is the whole name and the token is
empty. -/
theorem C1_fails_on_slash_after_dot :
    '.' ∈ "a.b/c".toList ∧ "a.b/c".toList = "a".toList ++ '.' :: "b/c".toList ∧
    '.' ∉ "b/c".toList ∧
    imageIdentifier "a.b/c".toList ≠ "a".toList ∧
    fileExtension "a.b/c".toList ≠ "b/c".toList ∧
    imageIdentifier "a.b/c".toList = "a.b/c".toList ∧
    fileExtension "a.b/c".toList = [] := by
  decide

/-- C1 (amended): for a file name `pre ++ "." ++ suf` whose last dot is the
shown one (no dot in `suf`) and with no path separator after that dot, the
identifier of line 39 is `pre`, everything before the last dot, and the
file-type token of line 52 is `suf`, everything after it. -/
theorem C1_split_at_last_dot (pre suf : GoString) (hd : '.' ∉ suf) (hs : '/' ∉ suf) :
    imageIdentifier (pre ++ '.' :: suf) = pre ∧ fileExtension (pre ++ '.' :: suf) = suf := by
  have hE := Ext_found pre suf hd hs
  constructor
  · rw [imageIdentifier, hE]; exact TrimSuffix_append pre ('.' :: suf)
  · rw [fileExtension, hE]; exact TrimPrefix_dot suf

/-- C1 (amended), at the file name `66f2cbaf9c143.png` of the source
comment: identifier `66f2cbaf9c143`, token `png`. -/
theorem C1_split_at_last_dot_witness :
    ('.' ∉ "png".toList ∧ '/' ∉ "png".toList) ∧
    imageIdentifier ("66f2cbaf9c143".toList ++ '.' :: "png".toList) = "66f2cbaf9c143".toList ∧
    fileExtension ("66f2cbaf9c143".toList ++ '.' :: "png".toList) = "png".toList :=
  ⟨by decide, C1_split_at_last_dot "66f2cbaf9c143".toList "png".toList (by decide) (by decide)⟩

/-- C9: for a file name without any dot the derived identifier is the file
name unchanged and the derived file-type token is the empty string. -/
theorem C9_no_dot (name : GoString) (h : '.' ∉ name) :
    imageIdentifier name = name ∧ fileExtension name = [] := by
  have hE := Ext_no_dot name h
  constructor
  · rw [imageIdentifier, hE]; exact TrimSuffix_nil name
  · rw [fileExtension, hE]; exact TrimPrefix_nil_dot

/-- C9 at the file name `README`. -/
theorem C9_no_dot_witness :
    '.' ∉ "README".toList ∧
    imageIdentifier "README".toList = "README".toList ∧ fileExtension "README".toList = [] :=
  ⟨by decide, C9_no_dot "README".toList (by decide)⟩

/-- C10: for every file name the identifier is a prefix of it; when
`filepath.Ext` is empty the identifier is the name and the token is empty;
otherwise identifier, a dot and the token concatenate back to the name and
the token has no dot; and the names `a` and `a.` derive the same pair. -/
theorem C10_split_loses_only_trailing_dot (name : GoString) :
    imageIdentifier name <+: name ∧
    (Ext name = [] → imageIdentifier name = name ∧ fileExtension name = []) ∧
    (Ext name ≠ [] →
      imageIdentifier name ++ '.' :: fileExtension name = name ∧ '.' ∉ fileExtension name) ∧
    (imageIdentifier "a".toList, fileExtension "a".toList) =
      (imageIdentifier "a.".toList, fileExtension "a.".toList) := by
  have hnil : Ext name = [] → imageIdentifier name = name ∧ fileExtension name = [] := by
    intro hE
    constructor
    · rw [imageIdentifier, hE]; exact TrimSuffix_nil name
    · rw [fileExtension, hE]; exact TrimPrefix_nil_dot
  have hcons : Ext name ≠ [] →
      imageIdentifier name ++ '.' :: fileExtension name = name ∧ '.' ∉ fileExtension name := by
    intro hE
    rcases Ext_shape name with h | ⟨pre, suf, hname, hnd, hext⟩
    · exact absurd h hE
    · have hid : imageIdentifier name = pre := by
        rw [imageIdentifier, hext]
        conv => lhs; arg 1; rw [hname]
        exact TrimSuffix_append pre ('.' :: suf)
      have htok : fileExtension name = suf := by
        rw [fileExtension, hext]; exact TrimPrefix_dot suf
      rw [hid, htok]
      exact ⟨hname.symm, hnd⟩
  refine ⟨?_, hnil, hcons, by decide⟩
  by_cases hE : Ext name = []
  · rw [(hnil hE).1]
  · exact ⟨'.' :: fileExtension name, (hcons hE).1⟩

/-- C10 at the file name `x.tar.gz`: the extension is not empty, identifier
`x.tar` and token `gz` concatenate back, and the token has no dot. -/
theorem C10_split_loses_only_trailing_dot_witness :
    Ext "x.tar.gz".toList ≠ [] ∧
    imageIdentifier "x.tar.gz".toList ++ '.' :: fileExtension "x.tar.gz".toList =
      "x.tar.gz".toList ∧
    '.' ∉ fileExtension "x.tar.gz".toList :=
  ⟨by decide, (C10_split_loses_only_trailing_dot "x.tar.gz".toList).2.2.1 (by decide)⟩

/-! ## `downloadImage`: claim C8 -/

theorem downloadImage_info (env : Env) (w : World) (url : GoString) (msg : String)
    (attrs : List (String × AttrValue)) :
    (downloadImage env (w.info msg attrs) url).1 = (downloadImage env w url).1 := by
  simp only [downloadImage, World.info]
  cases env.httpGet w.gets.length url with
  | transportError e => rfl
  | response code status body readErr closeErr =>
    by_cases hc : code = StatusOK
    · cases readErr <;> simp [hc]
    · simp [hc]

/-- C8 (as stated, refuted): the transport succeeds, the status 201 is an
HTTP success status (2xx) and the body reads without error, yet
`downloadImage` returns the error `bad status: 201 Created` and no bytes. -/
theorem C8_fails_on_status_201 :
    envCreated.httpGet 0 (imageURL (sampleRow 1 "a1.png")) =
      GetResult.response 201 "201 Created".toList [1, 2, 3] none none ∧
    (200 ≤ 201 ∧ 201 < 300) ∧
    (downloadImage envCreated World.init (imageURL (sampleRow 1 "a1.png"))).1 =
      ⟨none, some "bad status: 201 Created".toList⟩ := by
  decide

/-- C8 (amended): `downloadImage` returns no error exactly when the
transport succeeds, the status code is exactly 200 (`http.StatusOK`) and
the body is read without error, and it then returns the full body; on a
transport failure, on any other status code and on a body-read failure it
returns `nil` bytes together with the matching error. -/
theorem C8_download_outcomes (env : Env) (w : World) (url : GoString) :
    ((downloadImage env w url).1.err = none ↔
      ∃ status body closeErr, env.httpGet w.gets.length url =
        GetResult.response StatusOK status body none closeErr) ∧
    (∀ status body closeErr,
      env.httpGet w.gets.length url = GetResult.response StatusOK status body none closeErr →
      (downloadImage env w url).1 = ⟨some body, none⟩) ∧
    (∀ e, env.httpGet w.gets.length url = GetResult.transportError e →
      (downloadImage env w url).1 = ⟨none, some ("failed to fetch image: ".toList ++ e)⟩) ∧
    (∀ code status body readErr closeErr,
      env.httpGet w.gets.length url = GetResult.response code status body readErr closeErr →
      code ≠ StatusOK →
      (downloadImage env w url).1 = ⟨none, some ("bad status: ".toList ++ status)⟩) ∧
    (∀ status body e closeErr,
      env.httpGet w.gets.length url = GetResult.response StatusOK status body (some e) closeErr →
      (downloadImage env w url).1 = ⟨none, some ("failed to read image data: ".toList ++ e)⟩) := by
  refine ⟨?_, ?_, ?_, ?_, ?_⟩
  · simp only [downloadImage]
    cases hg : env.httpGet w.gets.length url with
    | transportError e => simp
    | response code status body readErr closeErr =>
      by_cases hc : code = StatusOK
      · cases readErr <;> simp [hc]
      · simp [hc]
  · intro status body closeErr h
    simp [downloadImage, h]
  · intro e h
    simp [downloadImage, h]
  · intro code status body readErr closeErr h hc
    simp [downloadImage, h, hc]
  · intro status body e closeErr h
    simp [downloadImage, h]

/-- C8 (amended) in the world `envAllOk`: status 200 and a readable body
give the body `1, 2, 3` and no error. -/
theorem C8_download_outcomes_witness :
    envAllOk.httpGet World.init.gets.length baseURL =
      GetResult.response StatusOK "200 OK".toList [1, 2, 3] none none ∧
    (downloadImage envAllOk World.init baseURL).1 = ⟨some [1, 2, 3], none⟩ :=
  ⟨by decide, (C8_download_outcomes envAllOk World.init baseURL).2.1 "200 OK".toList [1, 2, 3] none
    (by decide)⟩

/-! ## One row: claims C4 and C7 -/

/-- C4: when the fetch of a legacy row succeeds with payload `b`, the row
handed to `NewDB.Create` carries the legacy `CreatedAt` and `UpdatedAt`,
the payload `b`, the legacy `OriginName` as original file name, the
derived file-type token as image type and the derived identifier; it is
the only row handed over for that legacy row. -/
theorem C4_translated_row (env : Env) (w : World) (image : OriginalImageTable) (b : List Nat)
    (h : (downloadImage env w (imageURL image)).1 = ⟨some b, none⟩) :
    (processRow env w image).created = w.created ++
      [{ CreatedAt := image.CreatedAt
         UpdatedAt := image.UpdatedAt
         ImageIdentifier := imageIdentifier image.Name
         OriginalFileName := image.OriginName
         ImageType := fileExtension image.Name
         ImageFileData := b }] := by
  have h1 := downloadImage_info env w (imageURL image) "Downloading image"
    [("identifier", AttrValue.str (imageIdentifier image.Name)),
      ("url", AttrValue.str (imageURL image))]
  rw [h] at h1
  simp only [downloadImage, World.info] at h1
  simp only [processRow, downloadImage, World.info]
  cases hg : env.httpGet w.gets.length (imageURL image) with
  | transportError e => simp [hg] at h1
  | response code status body readErr closeErr =>
    rw [hg] at h1
    by_cases hc : code = StatusOK
    · cases readErr with
      | some e => simp [hc] at h1
      | none =>
        simp only [hc, ne_eq, not_true_eq_false, if_false] at h1 ⊢
        have hb : body = b := by
          have := congrArg DownloadResult.data h1
          simpa using this
        subst hb
        cases closeErr <;>
          simp only [closeBody, World.error, storeImageInDatabase, Option.getD] <;>
          cases env.createErr w.created.length _ <;> simp [World.info, World.error]
    · simp [hc] at h1

/-- A row without zero timestamp is submitted by gorm as handed over. -/
theorem autoTime_of_ne_zero (now : Time) (row : NewImageTable)
    (hc : row.CreatedAt ≠ zeroTime) (hu : row.UpdatedAt ≠ zeroTime) : autoTime now row = row := by
  simp [autoTime, hc, hu]

/-- For a legacy row with zero timestamps, the row handed to `NewDB.Create`
carries the zero timestamps, while the row the destination holds carries
the time of the insert. -/
theorem processRow_zero_timestamps :
    (processRow envAllOk World.init zeroRow).created.map
        (fun r => (r.CreatedAt, r.UpdatedAt)) = [(zeroTime, zeroTime)] ∧
    (processRow envAllOk World.init zeroRow).stored.map
        (fun r => (r.CreatedAt, r.UpdatedAt)) = [(1700000000, 1700000000)] := by
  decide

/-- C4 on the first sample row in the world `envAllOk`: the download
yields the bytes 1, 2, 3 and the row handed to the insert is the
translation of the legacy row. -/
theorem C4_translated_row_witness :
    (downloadImage envAllOk World.init (imageURL (sampleRow 1 "a1.png"))).1 =
      ⟨some [1, 2, 3], none⟩ ∧
    (processRow envAllOk World.init (sampleRow 1 "a1.png")).created =
      World.init.created ++
        [{ CreatedAt := (sampleRow 1 "a1.png").CreatedAt
           UpdatedAt := (sampleRow 1 "a1.png").UpdatedAt
           ImageIdentifier := imageIdentifier (sampleRow 1 "a1.png").Name
           OriginalFileName := (sampleRow 1 "a1.png").OriginName
           ImageType := fileExtension (sampleRow 1 "a1.png").Name
           ImageFileData := [1, 2, 3] }] ∧
    (processRow envAllOk World.init (sampleRow 1 "a1.png")).created = [migrated 1 "a1"] :=
  ⟨by decide,
    C4_translated_row envAllOk World.init (sampleRow 1 "a1.png") [1, 2, 3] (by decide),
    by decide⟩

/-- C7 (as stated, refuted): a row whose fetch is answered with status 404
leaves two error-level records, `Bad status` from `downloadImage` and
`Error downloading image` from the batch loop, not one. -/
theorem C7_two_error_records :
    envNotFound.httpGet 0 (imageURL (sampleRow 1 "a1.png")) =
      GetResult.response 404 "404 Not Found".toList [] none none ∧
    (processRow envNotFound World.init (sampleRow 1 "a1.png")).log.map
        (fun e => (e.level, e.msg)) =
      [(Level.Info, "Downloading image"), (Level.Error, "Bad status"),
        (Level.Error, "Error downloading image")] ∧
    errorCount (processRow envNotFound World.init (sampleRow 1 "a1.png")).log = 2 ∧
    errorCount (processRow envNotFound World.init (sampleRow 1 "a1.png")).log ≠ 1 := by
  decide

/-- C7 (amended): when the fetch for a row is answered with a status code
other than 200, processing the row adds exactly two error-level records
(`Bad status` from `downloadImage`, `Error downloading image` from the batch
loop), plus one more when closing the response body fails; exactly one of
them carries the identifier of the row; and no row is handed to the
insert. -/
theorem C7_bad_status_records (env : Env) (w : World) (image : OriginalImageTable)
    (code : Nat) (status : GoString) (body : List Nat) (readErr closeErr : Option Err)
    (h : env.httpGet w.gets.length (imageURL image) =
      GetResult.response code status body readErr closeErr)
    (hc : code ≠ StatusOK) :
    errorCount (processRow env w image).log =
      errorCount w.log + 2 + (if closeErr.isSome then 1 else 0) ∧
    errorCountFor (imageIdentifier image.Name) (processRow env w image).log =
      errorCountFor (imageIdentifier image.Name) w.log + 1 ∧
    (processRow env w image).created = w.created ∧
    (processRow env w image).stored = w.stored := by
  cases closeErr <;>
    simp [processRow, downloadImage, World.info, World.error, h, hc, closeBody, errorCount,
      errorCountFor, List.filter_append]

/-- C7 (amended) on the first sample row in the world `envNotFound`. -/
theorem C7_bad_status_records_witness :
    (envNotFound.httpGet World.init.gets.length (imageURL (sampleRow 1 "a1.png")) =
      GetResult.response 404 "404 Not Found".toList [] none none ∧ 404 ≠ StatusOK) ∧
    errorCount (processRow envNotFound World.init (sampleRow 1 "a1.png")).log =
      errorCount World.init.log + 2 + (if (none : Option Err).isSome then 1 else 0) :=
  ⟨by decide,
    (C7_bad_status_records envNotFound World.init (sampleRow 1 "a1.png") 404
      "404 Not Found".toList [] none none (by decide) (by decide)).1⟩

/-! ## The paginated run: claims C2, C3, C5, C6 -/

theorem processRow_gets (env : Env) (w : World) (image : OriginalImageTable) :
    (processRow env w image).gets = w.gets ++ [imageURL image] := by
  simp only [processRow, downloadImage, World.info]
  cases env.httpGet w.gets.length (imageURL image) with
  | transportError e => simp [World.error]
  | response code status body readErr closeErr =>
    by_cases hc : code = StatusOK
    · cases readErr with
      | some e => cases closeErr <;> simp [hc, closeBody, World.error]
      | none =>
        cases closeErr <;>
          simp only [hc, ne_eq, not_true_eq_false, if_false, closeBody, World.error,
            storeImageInDatabase] <;>
          cases env.createErr w.created.length _ <;> simp [World.info, World.error]
    · cases closeErr <;> simp [hc, closeBody, World.error]

theorem foldl_processRow_gets (env : Env) (images : List OriginalImageTable) :
    ∀ w : World, (images.foldl (processRow env) w).gets = w.gets ++ images.map imageURL := by
  induction images with
  | nil => intro w; simp
  | cons image rest ih =>
    intro w
    rw [List.foldl_cons, ih, processRow_gets]
    simp

theorem callback_gets (env : Env) (w : World) (images : List OriginalImageTable) (batch : Nat) :
    (callback env w images batch).1.gets = w.gets ++ images.map imageURL := by
  simp [callback, foldl_processRow_gets, World.info]

/-- After a first page that is full, the callback has emptied `images`,
so `FindInBatches` cannot read the cursor of the next page: with a primary
key the index `Len()-1` is out of range and the call panics, without one
it gives up with `ErrPrimaryKeyRequired`.  Either way one read is all
that happens. -/
theorem mainWith_full_first_page (schema : Schema) (table : List OriginalImageTable)
    (env : Env) (size : Nat) (hsize : 0 < size) (hlen : size ≤ table.length)
    (hread : env.findErr 1 = none) :
    mainWith schema table env size =
      some (report
        ⟨match schema.PrioritizedPrimaryField with
          | none => Exit.returned (some ErrPrimaryKeyRequired)
          | some _ => Exit.panicked "reflect: slice index out of range",
          (callback env World.init (table.take size) 1).1, [], 1, size⟩) := by
  have hrows : (Find schema table none size).length = size := by
    simp [Find, List.length_take, hlen]
  have hne : ¬ size = 0 := by omega
  simp only [mainWith, FindInBatches, FindInBatchesLoop, hread, hrows, Option.map]
  cases hpk : schema.PrioritizedPrimaryField with
  | none => simp [hne, callback, Find]
  | some pk => simp [hne, callback, Find]

/-- A table shorter than the page size is migrated in one page and the run
ends in `Done`. -/
theorem mainWith_short_table (schema : Schema) (table : List OriginalImageTable)
    (env : Env) (size : Nat) (hne : table ≠ []) (hlen : table.length < size)
    (hread : env.findErr 1 = none) :
    mainWith schema table env size =
      some (report ⟨Exit.returned none, (callback env World.init table 1).1, [], 1,
        table.length⟩) := by
  have htake : table.take size = table := List.take_of_length_le (by omega)
  have hrows : Find schema table none size = table := by
    simp [Find, htake]
  have hpos : ¬ table.length = 0 := by
    intro h; exact hne (List.length_eq_zero.mp h)
  simp [mainWith, FindInBatches, FindInBatchesLoop, hread, hrows, hpos, hlen, callback]

/-- A row whose download fails is never handed to the insert. -/
theorem processRow_failed_download (env : Env) (w : World) (image : OriginalImageTable)
    (e : Err) (h : (downloadImage env w (imageURL image)).1.err = some e) :
    (processRow env w image).created = w.created ∧ (processRow env w image).stored = w.stored := by
  have h1 := downloadImage_info env w (imageURL image) "Downloading image"
    [("identifier", AttrValue.str (imageIdentifier image.Name)),
      ("url", AttrValue.str (imageURL image))]
  simp only [downloadImage, World.info] at h h1
  simp only [processRow, downloadImage, World.info]
  cases hg : env.httpGet w.gets.length (imageURL image) with
  | transportError e1 => simp [World.error]
  | response code status body readErr closeErr =>
    rw [hg] at h
    by_cases hc : code = StatusOK
    · cases readErr with
      | some e1 => cases closeErr <;> simp [hc, closeBody, World.error]
      | none => simp [hc] at h
    · cases closeErr <;> simp [hc, closeBody, World.error]

/-- C2 (the code at the failing input): three legacy rows, page size 2,
every read, download and insert succeeding.  The run enters the callback
once, downloads the first two rows only, issues a single read and dies in
a panic; the claim promises two pages and all three rows.  With the page
size 10000 of line 21 and a table of 10001 rows the same happens: one
read, 10000 downloads, panic. -/
theorem C2_one_page_of_two :
    (mainWith sampleSchema sampleTable envAllOk 2).map
        (fun r => (r.outcome, r.reads, batchesProcessed r.world.log, r.world.gets)) =
      some (Outcome.Panicked "reflect: slice index out of range", 1, 1,
        [imageURL (sampleRow 1 "a1.png"), imageURL (sampleRow 2 "b2.png")]) ∧
    (∃ r, main sampleSchema bigTable envAllOk = some r ∧
      r.outcome = Outcome.Panicked "reflect: slice index out of range" ∧
      r.reads = 1 ∧ r.world.gets.length = 10000 ∧ bigTable.length = 10001) := by
  have hmain := mainWith_full_first_page sampleSchema bigTable envAllOk batchSize (by decide)
    (by simp [bigTable, batchSize]) rfl
  refine ⟨by decide, _, hmain, ?_⟩
  simp [report, sampleSchema, callback_gets, World.init, bigTable, batchSize]

/-- With the page size lowered to 2 (line 21 has 10000), three rows and
the download of the second row answered with status 404, only the first
row is handed to the insert: the run dies after the first page, as in C2,
and the third row is never downloaded. -/
theorem mainWith_page_size_two :
    (mainWith sampleSchema sampleTable envSecondFetchFails 2).map
        (fun r => (r.outcome, r.world.created, r.world.gets)) =
      some (Outcome.Panicked "reflect: slice index out of range",
        [migrated 1 "a1"],
        [imageURL (sampleRow 1 "a1.png"), imageURL (sampleRow 2 "b2.png")]) := by
  decide

/-- C5 (the code at the failing input): two legacy rows, page size 2, no
read, download or insert failing.  With a primary key the run dies in a
panic and never reaches line 72; without one it reports the run-level
error `primary key required` although no read failed.  In neither case
does it end in `Done`. -/
theorem C5_full_page_not_done :
    (∀ n, envAllOk.findErr n = none) ∧
    (mainWith sampleSchema [sampleRow 1 "a1.png", sampleRow 2 "b2.png"] envAllOk 2).map
        (fun r => (r.outcome, errorCount r.world.log, r.world.stored)) =
      some (Outcome.Panicked "reflect: slice index out of range", 0,
        [migrated 1 "a1", migrated 2 "b2"]) ∧
    (mainWith keylessSchema [sampleRow 1 "a1.png", sampleRow 2 "b2.png"] envAllOk 2).map
        (fun r => (r.outcome, errorCount r.world.log, r.world.stored)) =
      some (Outcome.FatalAborted ErrPrimaryKeyRequired, 1,
        [migrated 1 "a1", migrated 2 "b2"]) := by
  refine ⟨fun _ => rfl, by decide, by decide⟩

end Migration
